import Mathlib

/-!
Verification of the pysnake game engine (`game.py`).

The game state is embedded shallowly:
* `Coord`    — a grid cell `(row, col)` as a pair of integers.
* `Snake`    — rows/cols, center position, direction, body deque
               (Python `collections.deque`, modelled as a `List` whose
               first element is the tail and last element is the head).
* `Field`    — rows/cols, target flower count, flower set
               (Python `set`, modelled as a `Finset`).
* `Game`     — lives, score, state machine, owned snake and field.

Python's `random.randint` sampling is modelled by an explicit oracle: a
list of candidate coordinates consumed in order.  A `while` loop that
would keep sampling past the end of the oracle, and any operation that
would raise in Python (`deque.popleft` / indexing on an empty deque,
`set.remove` of an absent element), returns `none`.
-/

namespace Pysnake

abbrev Coord := Int × Int

/-- The conditional wrap used in `Snake.update` and `Snake.grow`:
`if v < 0: v = bound + v elif v >= bound: v -= bound`. -/
def wrapStep (v bound : Int) : Int :=
  if v < 0 then bound + v
  else if bound ≤ v then v - bound
  else v

/-- The wrap used in `Snake.__init__`, which only corrects negatives:
`if v < 0: v = bound + v`. -/
def wrapNeg (v bound : Int) : Int :=
  if v < 0 then bound + v else v

/-- Arrow keys (plus "any other key", which the game ignores). -/
inductive Key where
  | up | down | left | right | other
deriving DecidableEq, Repr

structure Snake where
  rows : Int
  cols : Int
  pos : Coord
  dir : Coord
  blocks : List Coord
deriving DecidableEq, Repr

namespace Snake

/-- `Snake.__init__(rows, cols, length=3)`: body centered at
`(rows // 2, cols // 2)` facing right, cells appended for
`i in range(-length+1, 1)` at `pos + i*dir`, negatives wrapped. -/
def init (rows cols : Int) (length : Nat := 3) : Snake :=
  let pos : Coord := (Int.fdiv rows 2, Int.fdiv cols 2)
  let dir : Coord := (0, 1)
  { rows := rows, cols := cols, pos := pos, dir := dir,
    blocks := (List.range length).map fun k =>
      let i : Int := (k : Int) - ((length : Int) - 1)
      (wrapNeg (pos.1 + i * dir.1) rows, wrapNeg (pos.2 + i * dir.2) cols) }

/-- `Snake.grow`: prepend a new tail cell at `tail + tail_dir`, where
`tail_dir` is `blocks[0] - blocks[1]` (or the current heading if the
body is shorter than 2).  `none` when the body is empty (Python would
raise indexing `blocks[0]`). -/
def grow (s : Snake) : Option Snake :=
  match s.blocks with
  | [] => none
  | b0 :: rest =>
    let tail_dir : Coord :=
      match rest with
      | [] => s.dir
      | b1 :: _ => (b0.1 - b1.1, b0.2 - b1.2)
    let new_block : Coord :=
      (wrapStep (b0.1 + tail_dir.1) s.rows, wrapStep (b0.2 + tail_dir.2) s.cols)
    some { s with blocks := new_block :: b0 :: rest }

/-- `Snake.key_callback`: arrow keys overwrite the direction, any other
key is ignored. -/
def key_callback (s : Snake) (key : Key) : Snake :=
  match key with
  | .up => { s with dir := (-1, 0) }
  | .down => { s with dir := (1, 0) }
  | .left => { s with dir := (0, -1) }
  | .right => { s with dir := (0, 1) }
  | .other => s

end Snake

structure Field where
  rows : Int
  cols : Int
  num_flowers : Nat
  flowers : Finset Coord
deriving DecidableEq

namespace Field

/-- The `while len(self.flowers) < self.num_flowers` sampling loop shared
by `Field.__init__` and `Field.update`: draw candidates from the oracle,
adding those not on the snake; `none` models the loop still running when
the oracle is exhausted. -/
def fill (target : Nat) (blocks : List Coord) :
    Finset Coord → List Coord → Option (Finset Coord)
  | flowers, [] => if flowers.card < target then none else some flowers
  | flowers, p :: rest =>
    if flowers.card < target then
      if p ∈ blocks then fill target blocks flowers rest
      else fill target blocks (insert p flowers) rest
    else some flowers

/-- `Field.__init__(rows, cols, snake, num_flowers=2)`. -/
def init (rows cols : Int) (blocks : List Coord) (rand : List Coord)
    (num_flowers : Nat := 2) : Option Field :=
  (fill num_flowers blocks ∅ rand).map fun fl =>
    { rows := rows, cols := cols, num_flowers := num_flowers, flowers := fl }

/-- `Field.update(snake)`: top up the flower set to `num_flowers`. -/
def update (f : Field) (blocks : List Coord) (rand : List Coord) :
    Option Field :=
  (fill f.num_flowers blocks f.flowers rand).map fun fl =>
    { f with flowers := fl }

/-- `Field.eat_flower`: `self.flowers.remove(flower)`; Python raises
`KeyError` when the flower is absent, modelled as `none`. -/
def eat_flower (f : Field) (flower : Coord) : Option Field :=
  if flower ∈ f.flowers then some { f with flowers := f.flowers.erase flower }
  else none

end Field

namespace Snake

/-- `Snake.update(field)`: pop the tail, compute the wrapped new head;
death `(false, false)` if the new head hits the remaining body; else eat
a coinciding flower (remove it and grow) and append the new head.
Returns the updated snake and field together with
`(is_living, ate_flower)`; `none` models Python raising on a too-short
body (`popleft` / `blocks[-1]` on an empty deque). -/
def update (s : Snake) (f : Field) :
    Option (Snake × Field × Bool × Bool) :=
  match s.blocks with
  | [] => none
  | _ :: rest =>
    match rest.getLast? with
    | none => none
    | some hd =>
      let new_block : Coord :=
        (wrapStep (hd.1 + s.dir.1) s.rows, wrapStep (hd.2 + s.dir.2) s.cols)
      let s1 : Snake := { s with blocks := rest }
      if new_block ∈ rest then
        some (s1, f, false, false)
      else if new_block ∈ f.flowers then
        match f.eat_flower new_block, s1.grow with
        | some f2, some s2 =>
          some ({ s2 with blocks := s2.blocks ++ [new_block] }, f2, true, true)
        | _, _ => none
      else
        some ({ s1 with blocks := rest ++ [new_block] }, f, true, false)

end Snake

inductive GState where
  | playing | died
deriving DecidableEq, Repr

structure Game where
  rows : Int
  cols : Int
  lives : Int
  score : Int
  state : GState
  snake : Snake
  field : Field
deriving DecidableEq

namespace Game

/-- `Game.__init__(field_rows, field_cols, lives=3)` followed by
`new_game()`; the oracle feeds the field's flower sampling. -/
def init (rows cols : Int) (rand : List Coord) (lives : Int := 3) :
    Option Game :=
  let snake := Snake.init rows cols
  (Field.init rows cols snake.blocks rand).map fun field =>
    { rows := rows, cols := cols, lives := lives, score := 0,
      state := .playing, snake := snake, field := field }

/-- `Game.update()`: respawn when `died`; otherwise run the snake tick,
terminate with `false` when a fatal tick hits the last life, else
decrement a life on death, score an eaten flower, and top up the field. -/
def update (g : Game) (rand : List Coord) : Option (Game × Bool) :=
  match g.state with
  | .died =>
    let snake := Snake.init g.rows g.cols
    match Field.init g.rows g.cols snake.blocks rand with
    | none => none
    | some field =>
      some ({ g with snake := snake, field := field, state := .playing }, true)
  | .playing =>
    match g.snake.update g.field with
    | none => none
    | some (s1, f1, is_living, ate_flower) =>
      let g1 : Game := { g with snake := s1, field := f1 }
      if is_living = false ∧ g.lives < 2 then
        some (g1, false)
      else
        let g2 : Game :=
          if is_living then g1
          else { g1 with lives := g1.lives - 1, state := .died }
        let g3 : Game :=
          if ate_flower then { g2 with score := g2.score + 1 } else g2
        match g3.field.update g3.snake.blocks rand with
        | none => none
        | some f2 => some ({ g3 with field := f2 }, true)

/-- `Game.key_callback` forwards the key to the snake. -/
def key_callback (g : Game) (key : Key) : Game :=
  { g with snake := g.snake.key_callback key }

end Game

/-- The cell `Snake.grow` prepends, described as a function of the body:
the tail direction is the snake's heading when the body has a single
cell, otherwise the difference of the two tail-end cells. -/
def growCell (dir : Coord) (rows cols : Int) : List Coord → Coord
  | [] => (0, 0)
  | [b0] => (wrapStep (b0.1 + dir.1) rows, wrapStep (b0.2 + dir.2) cols)
  | b0 :: b1 :: _ =>
    (wrapStep (b0.1 + (b0.1 - b1.1)) rows, wrapStep (b0.2 + (b0.2 - b1.2)) cols)

/-- A cell lies on the `rows × cols` grid. -/
abbrev inBounds (rows cols : Int) (c : Coord) : Prop :=
  0 ≤ c.1 ∧ c.1 < rows ∧ 0 ≤ c.2 ∧ c.2 < cols


/-- A deterministic session driving three consecutive fatal collisions:
a fresh default game (`lives = 3`, 30×40 grid, flower oracle
`[(0,0),(1,1)]` for each field construction), whose snake is steered
left before every playing tick — reversing straight into its own body,
an immediate fatal self-collision.  `sessionTick1/3/5` are the three
fatal ticks; `sessionTick2/4` are the respawn ticks in between. -/
def sessionTick1 : Option (Game × Bool) :=
  (Game.init 30 40 [(0,0), (1,1)]).bind fun g0 =>
    Game.update (g0.key_callback .left) []

def sessionTick2 : Option (Game × Bool) :=
  sessionTick1.bind fun gb => Game.update gb.1 [(0,0), (1,1)]

def sessionTick3 : Option (Game × Bool) :=
  sessionTick2.bind fun gb => Game.update (gb.1.key_callback .left) []

def sessionTick4 : Option (Game × Bool) :=
  sessionTick3.bind fun gb => Game.update gb.1 [(0,0), (1,1)]

def sessionTick5 : Option (Game × Bool) :=
  sessionTick4.bind fun gb => Game.update (gb.1.key_callback .left) []

theorem Snake.grow_eq (s : Snake) (b0 : Coord) (rest : List Coord)
    (hb : s.blocks = b0 :: rest) :
    s.grow = some { s with
      blocks := growCell s.dir s.rows s.cols (b0 :: rest) :: b0 :: rest } := by
  cases rest with
  | nil => simp [Snake.grow, growCell, hb]
  | cons b1 tl => simp [Snake.grow, growCell, hb]

theorem Snake.update_eq (s : Snake) (f : Field) (b0 hd nb : Coord)
    (rest : List Coord)
    (hb : s.blocks = b0 :: rest) (hl : rest.getLast? = some hd)
    (hnb : nb = (wrapStep (hd.1 + s.dir.1) s.rows,
                 wrapStep (hd.2 + s.dir.2) s.cols)) :
    s.update f =
      if nb ∈ rest then some ({ s with blocks := rest }, f, false, false)
      else if nb ∈ f.flowers then
        some ({ s with blocks := growCell s.dir s.rows s.cols rest :: (rest ++ [nb]) },
              { f with flowers := f.flowers.erase nb }, true, true)
      else some ({ s with blocks := rest ++ [nb] }, f, true, false) := by
  cases rest with
  | nil => simp at hl
  | cons r0 rtl =>
    have hg := Snake.grow_eq { s with blocks := r0 :: rtl } r0 rtl rfl
    simp only [Snake.update, hb, hl, ← hnb, Field.eat_flower, hg]
    by_cases hmem : nb ∈ r0 :: rtl
    · simp [hmem]
    · by_cases hfl : nb ∈ f.flowers
      · simp [hmem, hfl]
      · simp [hmem, hfl]

theorem wrapStep_bounds (v bound : Int) (h1 : -bound < v) (h2 : v < 2 * bound) :
    0 ≤ wrapStep v bound ∧ wrapStep v bound < bound := by
  unfold wrapStep
  split
  · omega
  · split <;> omega

theorem wrapStep_eq_emod (v bound : Int) (hb : 1 ≤ bound) (h1 : -1 ≤ v)
    (h2 : v ≤ bound) : wrapStep v bound = v % bound := by
  unfold wrapStep
  split
  · have hv : v = -1 := by omega
    subst hv
    have h3 : (-1 : Int) % bound = (-1 + bound * 1) % bound :=
      (Int.add_mul_emod_self_left (-1) bound 1).symm
    rw [h3, Int.emod_eq_of_lt (by omega) (by omega)]
    ring
  · split
    · have hv : v = bound := by omega
      subst hv
      rw [Int.emod_self]
      omega
    · rw [Int.emod_eq_of_lt (by omega) (by omega)]

theorem Field.fill_card (target : Nat) (blocks : List Coord)
    (rand : List Coord) :
    ∀ (flowers fl : Finset Coord), flowers.card ≤ target →
      Field.fill target blocks flowers rand = some fl → fl.card = target := by
  induction rand with
  | nil =>
    intro flowers fl hc h
    unfold Field.fill at h
    split at h
    · exact absurd h (by simp)
    · rename_i hge
      obtain rfl : flowers = fl := by simpa using h
      omega
  | cons p rest ih =>
    intro flowers fl hc h
    unfold Field.fill at h
    split at h
    · rename_i hlt
      split at h
      · exact ih flowers fl hc h
      · exact ih (insert p flowers) fl
          (le_trans (Finset.card_insert_le p flowers) (by omega)) h
    · rename_i hge
      obtain rfl : flowers = fl := by simpa using h
      omega

theorem Field.fill_mem (target : Nat) (blocks : List Coord)
    (rand : List Coord) :
    ∀ (flowers fl : Finset Coord),
      Field.fill target blocks flowers rand = some fl →
      ∀ p ∈ fl, p ∈ flowers ∨ p ∉ blocks := by
  induction rand with
  | nil =>
    intro flowers fl h p hp
    unfold Field.fill at h
    split at h
    · exact absurd h (by simp)
    · obtain rfl : flowers = fl := by simpa using h
      exact Or.inl hp
  | cons q rest ih =>
    intro flowers fl h p hp
    unfold Field.fill at h
    split at h
    · split at h
      · exact ih flowers fl h p hp
      · rename_i hq
        rcases ih (insert q flowers) fl h p hp with hin | hout
        · rcases Finset.mem_insert.mp hin with rfl | hin
          · exact Or.inr hq
          · exact Or.inl hin
        · exact Or.inr hout
    · obtain rfl : flowers = fl := by simpa using h
      exact Or.inl hp

theorem Field.fill_noop (target : Nat) (blocks : List Coord)
    (rand : List Coord) (flowers : Finset Coord)
    (h : ¬ flowers.card < target) :
    Field.fill target blocks flowers rand = some flowers := by
  cases rand <;> simp [Field.fill, h]

theorem Snake.update_inv (s : Snake) (f : Field) (s2 : Snake) (f2 : Field)
    (living ate : Bool)
    (h : s.update f = some (s2, f2, living, ate)) :
    ∃ b0 rest hd nb,
      s.blocks = b0 :: rest ∧ rest.getLast? = some hd ∧
      nb = (wrapStep (hd.1 + s.dir.1) s.rows,
            wrapStep (hd.2 + s.dir.2) s.cols) ∧
      ((nb ∈ rest ∧ living = false ∧ ate = false ∧
          s2 = { s with blocks := rest } ∧ f2 = f) ∨
       (nb ∉ rest ∧ nb ∉ f.flowers ∧ living = true ∧ ate = false ∧
          s2 = { s with blocks := rest ++ [nb] } ∧ f2 = f) ∨
       (nb ∉ rest ∧ nb ∈ f.flowers ∧ living = true ∧ ate = true ∧
          s2 = { s with
            blocks := growCell s.dir s.rows s.cols rest :: (rest ++ [nb]) } ∧
          f2 = { f with flowers := f.flowers.erase nb })) := by
  cases hb : s.blocks with
  | nil => simp [Snake.update, hb] at h
  | cons b0 rest =>
    cases hl : rest.getLast? with
    | none => simp [Snake.update, hb, hl] at h
    | some hd =>
      rw [Snake.update_eq s f b0 hd _ rest hb hl rfl] at h
      refine ⟨b0, rest, hd, _, rfl, hl, rfl, ?_⟩
      split at h
      · rename_i hmem
        simp only [Option.some.injEq, Prod.mk.injEq] at h
        obtain ⟨h1, h2, h3, h4⟩ := h
        exact Or.inl ⟨hmem, h3.symm, h4.symm, h1.symm, h2.symm⟩
      · split at h
        · rename_i hmem hfl
          simp only [Option.some.injEq, Prod.mk.injEq] at h
          obtain ⟨h1, h2, h3, h4⟩ := h
          exact Or.inr (Or.inr ⟨hmem, hfl, h3.symm, h4.symm, h1.symm, h2.symm⟩)
        · rename_i hmem hfl
          simp only [Option.some.injEq, Prod.mk.injEq] at h
          obtain ⟨h1, h2, h3, h4⟩ := h
          exact Or.inr (Or.inl ⟨hmem, hfl, h3.symm, h4.symm, h1.symm, h2.symm⟩)

theorem Game.update_died (g : Game) (rand : List Coord)
    (hstate : g.state = .died) :
    g.update rand =
      match Field.init g.rows g.cols (Snake.init g.rows g.cols).blocks rand with
      | none => none
      | some field =>
        some ({ g with snake := Snake.init g.rows g.cols, field := field,
                       state := .playing }, true) := by
  simp only [Game.update, hstate]

theorem Game.update_fatal_last (g : Game) (rand : List Coord)
    (s1 : Snake) (f1 : Field)
    (hstate : g.state = .playing)
    (hs : g.snake.update g.field = some (s1, f1, false, false))
    (hlives : g.lives < 2) :
    g.update rand = some ({ g with snake := s1, field := f1 }, false) := by
  simp [Game.update, hstate, hs, hlives]

theorem Game.update_fatal (g : Game) (rand : List Coord)
    (s1 : Snake) (f1 : Field)
    (hstate : g.state = .playing)
    (hs : g.snake.update g.field = some (s1, f1, false, false))
    (hlives : ¬ g.lives < 2) :
    g.update rand =
      match f1.update s1.blocks rand with
      | none => none
      | some f2 =>
        some ({ g with snake := s1, field := f2,
                       lives := g.lives - 1, state := .died }, true) := by
  simp [Game.update, hstate, hs, hlives]

theorem Game.update_alive (g : Game) (rand : List Coord)
    (s1 : Snake) (f1 : Field)
    (hstate : g.state = .playing)
    (hs : g.snake.update g.field = some (s1, f1, true, false)) :
    g.update rand =
      match f1.update s1.blocks rand with
      | none => none
      | some f2 => some ({ g with snake := s1, field := f2 }, true) := by
  simp [Game.update, hstate, hs]

theorem Game.update_ate (g : Game) (rand : List Coord)
    (s1 : Snake) (f1 : Field)
    (hstate : g.state = .playing)
    (hs : g.snake.update g.field = some (s1, f1, true, true)) :
    g.update rand =
      match f1.update s1.blocks rand with
      | none => none
      | some f2 =>
        some ({ g with snake := s1, field := f2,
                       score := g.score + 1 }, true) := by
  simp [Game.update, hstate, hs]

/-- C8: snake construction is deterministic: `Snake.__init__(30, 40)`
yields direction `(0,1)`, body `[(15,18),(15,19),(15,20)]` — the cells
`center - i*direction` for `i = 2, 1, 0`, wrapped — with the head (the
last body element) at `(15,20)`. -/
theorem C8_construction :
    (Snake.init 30 40 3).dir = (0, 1) ∧
    (Snake.init 30 40 3).blocks = [(15, 18), (15, 19), (15, 20)] ∧
    (Snake.init 30 40 3).blocks.getLast? = some (15, 20) ∧
    (Snake.init 30 40 3).blocks =
      (List.range 3).map fun k =>
        (wrapNeg (15 - (2 - (k : Int)) * 0) 30,
         wrapNeg (20 - (2 - (k : Int)) * 1) 40) := by
  decide

/-- C9: `Field.eat_flower` removes exactly the given position from the
flower set when present, leaving every other flower unchanged, and
signals an error (`none`, Python `KeyError`) iff the position is not in
the flower set. -/
theorem C9_eat_flower (f : Field) (p : Coord) :
    (p ∈ f.flowers →
      f.eat_flower p = some { f with flowers := f.flowers.erase p } ∧
      p ∉ f.flowers.erase p ∧
      ∀ q, q ≠ p → (q ∈ f.flowers.erase p ↔ q ∈ f.flowers)) ∧
    (f.eat_flower p = none ↔ p ∉ f.flowers) := by
  constructor
  · intro hp
    refine ⟨by simp [Field.eat_flower, hp], Finset.not_mem_erase p _, ?_⟩
    intro q hq
    simp [Finset.mem_erase, hq]
  · constructor
    · intro h hp
      simp [Field.eat_flower, hp] at h
    · intro hp
      simp [Field.eat_flower, hp]

/-- Witness for C9: eating the flower `(0,0)` out of `{(0,0),(1,1)}`
leaves exactly `{(1,1)}`. -/
theorem C9_eat_flower_witness :
    Field.eat_flower ⟨30, 40, 2, {(0,0), (1,1)}⟩ (0, 0) =
      some ⟨30, 40, 2, {(1,1)}⟩ := by
  have h := (C9_eat_flower ⟨30, 40, 2, {(0,0), (1,1)}⟩ (0, 0)).1 (by decide)
  rw [h.1]
  decide

/-- C2: on a body `b0 :: rest` (popped tail `b0`, old head `hd` the last
element of `rest`), `Snake.update` reports death `(false, false)` iff
the wrapped new head `nb` lies in the remaining body `rest`; any death
report leaves the body exactly `rest` (tail removed, head not appended)
and the field untouched; and stepping onto the just-vacated tail cell
`b0` is not a collision. -/
theorem C2_self_collision (s : Snake) (f : Field) (b0 hd nb : Coord)
    (rest : List Coord)
    (hb : s.blocks = b0 :: rest) (hl : rest.getLast? = some hd)
    (hnb : nb = (wrapStep (hd.1 + s.dir.1) s.rows,
                 wrapStep (hd.2 + s.dir.2) s.cols)) :
    ((∃ s2 f2, s.update f = some (s2, f2, false, false)) ↔ nb ∈ rest) ∧
    (∀ s2 f2 ate, s.update f = some (s2, f2, false, ate) →
      ate = false ∧ s2 = { s with blocks := rest } ∧ f2 = f) ∧
    (nb = b0 → nb ∉ rest →
      ∃ s2 f2 ate, s.update f = some (s2, f2, true, ate)) := by
  have he := Snake.update_eq s f b0 hd nb rest hb hl hnb
  by_cases hmem : nb ∈ rest
  · rw [he]
    simp only [if_pos hmem]
    refine ⟨⟨fun _ => hmem, fun _ => ⟨_, _, rfl⟩⟩, ?_, ?_⟩
    · intro s2 f2 ate h
      simp only [Option.some.injEq, Prod.mk.injEq] at h
      exact ⟨h.2.2.2.symm, h.1.symm, h.2.1.symm⟩
    · intro _ habs
      exact absurd hmem habs
  · rw [he]
    simp only [if_neg hmem]
    by_cases hfl : nb ∈ f.flowers
    · simp only [if_pos hfl]
      refine ⟨⟨?_, fun h => absurd h hmem⟩, ?_, ?_⟩
      · rintro ⟨s2, f2, h⟩
        simp at h
      · intro s2 f2 ate h
        simp at h
      · intro _ _
        exact ⟨_, _, true, rfl⟩
    · simp only [if_neg hfl]
      refine ⟨⟨?_, fun h => absurd h hmem⟩, ?_, ?_⟩
      · rintro ⟨s2, f2, h⟩
        simp at h
      · intro s2 f2 ate h
        simp at h
      · intro _ _
        exact ⟨_, _, false, rfl⟩

/-- Witness for C2, on the spec's own example: the snake with body
`[(5,5),(5,6),(5,7)]` and direction `(0,-1)` dies, since the new head
`(5,6)` is in the remaining body. -/
theorem C2_self_collision_witness :
    ∃ s2 f2,
      Snake.update ⟨30, 40, (15, 20), (0, -1), [(5,5), (5,6), (5,7)]⟩
          ⟨30, 40, 2, {(2,2), (3,3)}⟩ = some (s2, f2, false, false) :=
  (C2_self_collision ⟨30, 40, (15, 20), (0, -1), [(5,5), (5,6), (5,7)]⟩
      ⟨30, 40, 2, {(2,2), (3,3)}⟩ (5, 5) (5, 7) (5, 6) [(5,6), (5,7)]
      rfl rfl (by decide)).1.mpr (by decide)

/-- C3 counterexample: a fatal `Snake.update` tick shrinks the body.
With body `[(6,5),(6,6),(6,7)]` and direction `(0,-1)` the tick
completes, reports `ate_flower = false`, and leaves length 2, strictly
below the previous length 3 — refuting "length never decreases and is
unchanged on every non-eating tick". -/
theorem C3_length_counterexample :
    (Snake.update ⟨30, 40, (15, 20), (0, -1), [(6,5), (6,6), (6,7)]⟩
        ⟨30, 40, 2, {(0,0), (1,1)}⟩).map
      (fun r => (r.1.blocks.length, r.2.2.1, r.2.2.2)) =
      some (2, false, false) := by
  decide

/-- C3 (amended): on every completed `Snake.update` tick the body stays
nonempty (length at least 1); on a tick reported alive the length
increases by exactly 1 when `ate_flower` is true and is unchanged when
it is false; on a fatal tick `ate_flower` is false and the length
decreases by exactly 1 (the popped tail is not restored). -/
theorem C3_length_monotonicity (s : Snake) (f : Field) (s2 : Snake)
    (f2 : Field) (living ate : Bool)
    (h : s.update f = some (s2, f2, living, ate)) :
    1 ≤ s2.blocks.length ∧
    (living = true → ate = true →
      s2.blocks.length = s.blocks.length + 1) ∧
    (living = true → ate = false →
      s2.blocks.length = s.blocks.length) ∧
    (living = false →
      ate = false ∧ s2.blocks.length + 1 = s.blocks.length) := by
  obtain ⟨b0, rest, hd, nb, hb, hl, hnb, hcase⟩ :=
    Snake.update_inv s f s2 f2 living ate h
  have hrest : rest ≠ [] := by
    intro hcontr
    rw [hcontr] at hl
    simp at hl
  have hpos : 1 ≤ rest.length := List.length_pos.mpr hrest
  rcases hcase with ⟨_, hliv, hate, hs2, _⟩ | ⟨_, _, hliv, hate, hs2, _⟩ |
    ⟨_, _, hliv, hate, hs2, _⟩ <;> subst hliv hate hs2 <;>
    simp [hb, hpos]

/-- Witness for C3 (amended): a plain tick of the freshly constructed
snake keeps length 3. -/
theorem C3_length_witness :
    (Snake.mk 30 40 (15, 20) (0, 1) [(15,19), (15,20), (15,21)]).blocks.length =
      (Snake.init 30 40 3).blocks.length :=
  (C3_length_monotonicity (Snake.init 30 40 3) ⟨30, 40, 2, {(0,0)}⟩
      ⟨30, 40, (15, 20), (0, 1), [(15,19), (15,20), (15,21)]⟩
      ⟨30, 40, 2, {(0,0)}⟩ true false (by decide)).2.2.1 rfl rfl

/-- C5: whenever `Field.update` returns — given the data-model invariant
that the flower count does not exceed the target — the resulting count
equals `num_flowers`, every flower either was already present or lies
off the snake's body, and the call is a no-op when the count is already
at the target; `Field.init` fills to its target count, which defaults
to 2. -/
theorem C5_flower_count (f : Field) (blocks rand : List Coord) (f2 : Field)
    (hcard : f.flowers.card ≤ f.num_flowers)
    (h : f.update blocks rand = some f2) :
    f2.flowers.card = f.num_flowers ∧
    (∀ p ∈ f2.flowers, p ∈ f.flowers ∨ p ∉ blocks) ∧
    (f.flowers.card = f.num_flowers → f2 = f) ∧
    (∀ rows cols bl rd f3, Field.init rows cols bl rd = some f3 →
      f3.num_flowers = 2 ∧ f3.flowers.card = 2) := by
  rw [Field.update] at h
  rcases Option.map_eq_some'.mp h with ⟨fl, hfill, rfl⟩
  refine ⟨Field.fill_card _ _ _ _ _ hcard hfill,
    Field.fill_mem _ _ _ _ _ hfill, ?_, ?_⟩
  · intro heq
    have hnoop := Field.fill_noop f.num_flowers blocks rand f.flowers
      (by omega)
    rw [hnoop] at hfill
    obtain rfl : fl = f.flowers := by simpa using hfill.symm
    rfl
  · intro rows cols bl rd f3 h3
    rw [Field.init] at h3
    rcases Option.map_eq_some'.mp h3 with ⟨fl3, hfill3, rfl⟩
    exact ⟨rfl, Field.fill_card _ _ _ _ _ (by simp) hfill3⟩

/-- Witness for C5: topping up a one-flower field with the oracle
`[(5,5),(7,7)]` (the first sample rejected, it is on the body) yields
the target count of 2. -/
theorem C5_flower_count_witness :
    (Field.mk 30 40 2 {(7,7), (0,0)}).flowers.card =
      (Field.mk 30 40 2 {(0,0)}).num_flowers :=
  (C5_flower_count ⟨30, 40, 2, {(0,0)}⟩ [(5,5)] [(5,5), (7,7)]
      ⟨30, 40, 2, {(7,7), (0,0)}⟩ (by decide) (by decide)).1

theorem wrapStep_range (v bound : Int) (h1 : -bound ≤ v) (h2 : v < 2 * bound) :
    0 ≤ wrapStep v bound ∧ wrapStep v bound < bound := by
  unfold wrapStep
  split
  · omega
  · split <;> omega

theorem growCell_inBounds (dir : Coord) (rows cols : Int) (l : List Coord)
    (hne : l ≠ []) (hr : 1 ≤ rows) (hc : 1 ≤ cols)
    (hdir : dir = (-1, 0) ∨ dir = (1, 0) ∨ dir = (0, -1) ∨ dir = (0, 1))
    (hl : ∀ c ∈ l, inBounds rows cols c) :
    inBounds rows cols (growCell dir rows cols l) := by
  have hd1 : -1 ≤ dir.1 ∧ dir.1 ≤ 1 ∧ -1 ≤ dir.2 ∧ dir.2 ≤ 1 := by
    rcases hdir with h | h | h | h <;> simp [h]
  match l, hne with
  | [b0], _ =>
    have hb0 := hl b0 (by simp)
    unfold growCell
    obtain ⟨w1, w2⟩ := wrapStep_range (b0.1 + dir.1) rows (by omega) (by omega)
    obtain ⟨w3, w4⟩ := wrapStep_range (b0.2 + dir.2) cols (by omega) (by omega)
    exact ⟨w1, w2, w3, w4⟩
  | b0 :: b1 :: tl, _ =>
    have hb0 := hl b0 (by simp)
    have hb1 := hl b1 (by simp)
    unfold growCell
    obtain ⟨w1, w2⟩ := wrapStep_range (b0.1 + (b0.1 - b1.1)) rows
      (by obtain ⟨x1, x2, x3, x4⟩ := hb0; obtain ⟨y1, y2, y3, y4⟩ := hb1; omega)
      (by obtain ⟨x1, x2, x3, x4⟩ := hb0; obtain ⟨y1, y2, y3, y4⟩ := hb1; omega)
    obtain ⟨w3, w4⟩ := wrapStep_range (b0.2 + (b0.2 - b1.2)) cols
      (by obtain ⟨x1, x2, x3, x4⟩ := hb0; obtain ⟨y1, y2, y3, y4⟩ := hb1; omega)
      (by obtain ⟨x1, x2, x3, x4⟩ := hb0; obtain ⟨y1, y2, y3, y4⟩ := hb1; omega)
    exact ⟨w1, w2, w3, w4⟩

/-- C7: on a grid with at least one row and one column, for a body whose
cells are all in bounds and a unit direction, every cell produced by
`Snake.grow` (the new tail included) and by `Snake.update` (the wrapped
new head included) satisfies `0 ≤ row < rows` and `0 ≤ col < cols`;
moreover the conditional wrap agrees with `value mod bound` on every
input from one unit below 0 up to the bound. -/
theorem C7_wrap_invariant (s : Snake) (hr : 1 ≤ s.rows) (hc : 1 ≤ s.cols)
    (hdir : s.dir = (-1, 0) ∨ s.dir = (1, 0) ∨ s.dir = (0, -1) ∨
            s.dir = (0, 1))
    (hbody : ∀ c ∈ s.blocks, inBounds s.rows s.cols c) :
    (∀ s2, s.grow = some s2 → ∀ c ∈ s2.blocks, inBounds s.rows s.cols c) ∧
    (∀ f s2 f2 living ate, s.update f = some (s2, f2, living, ate) →
      ∀ c ∈ s2.blocks, inBounds s.rows s.cols c) ∧
    (∀ v bound, 1 ≤ bound → -1 ≤ v → v ≤ bound →
      wrapStep v bound = v % bound) := by
  have hd1 : -1 ≤ s.dir.1 ∧ s.dir.1 ≤ 1 ∧ -1 ≤ s.dir.2 ∧ s.dir.2 ≤ 1 := by
    rcases hdir with h | h | h | h <;> simp [h]
  refine ⟨?_, ?_, fun v bound h1 h2 h3 => wrapStep_eq_emod v bound h1 h2 h3⟩
  · intro s2 hg c hcmem
    cases hb : s.blocks with
    | nil => rw [Snake.grow, hb] at hg; simp at hg
    | cons b0 rest =>
      rw [Snake.grow_eq s b0 rest hb] at hg
      obtain rfl : s2 = _ := by simpa using hg.symm
      simp only at hcmem
      rcases List.mem_cons.mp hcmem with rfl | hcmem
      · exact growCell_inBounds s.dir s.rows s.cols (b0 :: rest) (by simp)
          hr hc hdir (fun q hq => hbody q (hb ▸ hq))
      · exact hbody c (hb ▸ hcmem)
  · intro f s2 f2 living ate h c hcmem
    obtain ⟨b0, rest, hd, nb, hb, hlast, hnb, hcase⟩ :=
      Snake.update_inv s f s2 f2 living ate h
    have hdmem : hd ∈ rest := by
      obtain ⟨hne, heq⟩ :=
        List.mem_getLast?_eq_getLast (Option.mem_def.mpr hlast)
      rw [heq]
      exact List.getLast_mem hne
    have hdb := hbody hd (hb ▸ List.mem_cons_of_mem b0 hdmem)
    have hnbB : inBounds s.rows s.cols nb := by
      rw [hnb]
      obtain ⟨x1, x2, x3, x4⟩ := hdb
      obtain ⟨w1, w2⟩ := wrapStep_range (hd.1 + s.dir.1) s.rows
        (by omega) (by omega)
      obtain ⟨w3, w4⟩ := wrapStep_range (hd.2 + s.dir.2) s.cols
        (by omega) (by omega)
      exact ⟨w1, w2, w3, w4⟩
    have hrestB : ∀ q ∈ rest, inBounds s.rows s.cols q := fun q hq =>
      hbody q (hb ▸ List.mem_cons_of_mem b0 hq)
    have hrne : rest ≠ [] := by
      intro hcontr
      rw [hcontr] at hlast
      simp at hlast
    rcases hcase with ⟨_, _, _, hs2, _⟩ | ⟨_, _, _, _, hs2, _⟩ |
      ⟨_, _, _, _, hs2, _⟩ <;> subst hs2 <;> simp only at hcmem
    · exact hrestB c hcmem
    · rcases List.mem_append.mp hcmem with hcm | hcm
      · exact hrestB c hcm
      · obtain rfl : c = nb := by simpa using hcm
        exact hnbB
    · rcases List.mem_cons.mp hcmem with rfl | hcm
      · exact growCell_inBounds s.dir s.rows s.cols rest hrne hr hc hdir hrestB
      · rcases List.mem_append.mp hcm with hcm2 | hcm2
        · exact hrestB c hcm2
        · obtain rfl : c = nb := by simpa using hcm2
          exact hnbB

/-- Witness for C7: the wrap of `-1` over 30 rows agrees with the
mathematical modulus. -/
theorem C7_wrap_witness : wrapStep (-1) 30 = (-1) % 30 :=
  (C7_wrap_invariant (Snake.init 30 40 3) (by decide) (by decide)
      (by decide) (by decide)).2.2 (-1) 30 (by decide) (by decide) (by decide)

/-- C4 counterexample: with body `[(1,2),(0,2),(0,3)]` (bent at the
tail) and flowers `{(0,4),(0,1)}` — initially disjoint from the body —
the tick that eats `(0,4)` makes `Grow` extend the tail onto `(0,1)`,
which is still a flower: the flower set overlaps the body afterwards. -/
theorem C4_disjointness_counterexample :
    ((0,4) : Coord) ∉ [((1,2) : Coord), (0,2), (0,3)] ∧
    ((0,1) : Coord) ∉ [((1,2) : Coord), (0,2), (0,3)] ∧
    (Snake.update ⟨30, 40, (15, 20), (0, 1), [(1,2), (0,2), (0,3)]⟩
        ⟨30, 40, 2, {(0,4), (0,1)}⟩).map
      (fun r => (decide ((0,1) ∈ r.1.blocks),
                 decide ((0,1) ∈ r.2.1.flowers), r.2.2.1, r.2.2.2)) =
      some (true, true, true, true) := by
  decide

/-- C4 (amended): the flower set stays disjoint from the snake's body
under `Field.update` and under every `Snake.update` tick that does not
eat; on an eating tick the only cell where the two can overlap is the
single tail cell prepended by `Grow` (the head of the body list) — the
documented `Grow` overlap imprecision. -/
theorem C4_flower_disjointness :
    (∀ (f : Field) (blocks rand : List Coord) (f2 : Field),
      f.update blocks rand = some f2 → (∀ p ∈ f.flowers, p ∉ blocks) →
      ∀ p ∈ f2.flowers, p ∉ blocks) ∧
    (∀ (s : Snake) (f : Field) (s2 : Snake) (f2 : Field) (living : Bool),
      s.update f = some (s2, f2, living, false) →
      (∀ p ∈ f.flowers, p ∉ s.blocks) →
      ∀ p ∈ f2.flowers, p ∉ s2.blocks) ∧
    (∀ (s : Snake) (f : Field) (s2 : Snake) (f2 : Field),
      s.update f = some (s2, f2, true, true) →
      (∀ p ∈ f.flowers, p ∉ s.blocks) →
      ∀ p ∈ f2.flowers, p ∈ s2.blocks → s2.blocks.head? = some p) := by
  refine ⟨?_, ?_, ?_⟩
  · intro f blocks rand f2 h hdisj p hp
    rw [Field.update] at h
    rcases Option.map_eq_some'.mp h with ⟨fl, hfill, rfl⟩
    rcases Field.fill_mem _ _ _ _ _ hfill p hp with hold | hout
    · exact hdisj p hold
    · exact hout
  · intro s f s2 f2 living h hdisj p hp
    obtain ⟨b0, rest, hd, nb, hb, hl, hnb, hcase⟩ :=
      Snake.update_inv s f s2 f2 living false h
    rcases hcase with ⟨_, _, _, hs2, hf2⟩ | ⟨_, hnfl, _, _, hs2, hf2⟩ |
      ⟨_, _, _, hate, _, _⟩
    · subst hs2 hf2
      intro hmem
      exact hdisj p hp (hb ▸ List.mem_cons_of_mem b0 hmem)
    · subst hs2 hf2
      intro hmem
      simp only at hmem
      rcases List.mem_append.mp hmem with hm | hm
      · exact hdisj p hp (hb ▸ List.mem_cons_of_mem b0 hm)
      · obtain rfl : p = nb := by simpa using hm
        exact hnfl hp
    · exact absurd hate (by simp)
  · intro s f s2 f2 h hdisj p hp hmem
    obtain ⟨b0, rest, hd, nb, hb, hl, hnb, hcase⟩ :=
      Snake.update_inv s f s2 f2 true true h
    rcases hcase with ⟨_, _, hate, _, _⟩ | ⟨_, _, _, hate, _, _⟩ |
      ⟨_, hfl, _, _, hs2, hf2⟩
    · exact absurd hate.symm (by simp)
    · exact absurd hate.symm (by simp)
    · subst hs2 hf2
      have hpf : p ∈ f.flowers ∧ p ≠ nb := by
        have := Finset.mem_erase.mp hp
        exact ⟨this.2, this.1⟩
      simp only at hmem
      rcases List.mem_cons.mp hmem with rfl | hm
      · rfl
      · rcases List.mem_append.mp hm with hm2 | hm2
        · exact absurd (hb ▸ List.mem_cons_of_mem b0 hm2)
            (hdisj p hpf.1)
        · obtain rfl : p = nb := by simpa using hm2
          exact absurd rfl hpf.2

/-- Witness for C4 (amended): a plain non-eating tick of the fresh snake
keeps the lone flower `(0,0)` off the body. -/
theorem C4_disjointness_witness :
    ((0,0) : Coord) ∉
      (Snake.mk 30 40 (15, 20) (0, 1) [(15,19), (15,20), (15,21)]).blocks := by
  have h := C4_flower_disjointness.2.1 (Snake.init 30 40 3)
    ⟨30, 40, 2, {(0,0)}⟩
    ⟨30, 40, (15, 20), (0, 1), [(15,19), (15,20), (15,21)]⟩
    ⟨30, 40, 2, {(0,0)}⟩ true (by decide) (by decide)
  exact h (0, 0) (by decide)

theorem Game.update_ate_inv (g : Game) (rand : List Coord)
    (s1 : Snake) (f1 : Field) (g2 : Game) (ret : Bool)
    (hstate : g.state = .playing)
    (hs : g.snake.update g.field = some (s1, f1, true, true))
    (h : g.update rand = some (g2, ret)) :
    ∃ f2, f1.update s1.blocks rand = some f2 ∧
      g2 = { g with snake := s1, field := f2, score := g.score + 1 } ∧
      ret = true := by
  rw [Game.update_ate g rand s1 f1 hstate hs] at h
  cases hf : f1.update s1.blocks rand with
  | none =>
    rw [hf] at h
    exact absurd h (by simp)
  | some f2 =>
    simp only [hf, Option.some.injEq, Prod.mk.injEq] at h
    exact ⟨f2, rfl, h.1.symm, h.2.symm⟩

theorem Game.update_alive_inv (g : Game) (rand : List Coord)
    (s1 : Snake) (f1 : Field) (g2 : Game) (ret : Bool)
    (hstate : g.state = .playing)
    (hs : g.snake.update g.field = some (s1, f1, true, false))
    (h : g.update rand = some (g2, ret)) :
    ∃ f2, f1.update s1.blocks rand = some f2 ∧
      g2 = { g with snake := s1, field := f2 } ∧ ret = true := by
  rw [Game.update_alive g rand s1 f1 hstate hs] at h
  cases hf : f1.update s1.blocks rand with
  | none =>
    rw [hf] at h
    exact absurd h (by simp)
  | some f2 =>
    simp only [hf, Option.some.injEq, Prod.mk.injEq] at h
    exact ⟨f2, rfl, h.1.symm, h.2.symm⟩

theorem Game.update_fatal_inv (g : Game) (rand : List Coord)
    (s1 : Snake) (f1 : Field) (g2 : Game) (ret : Bool)
    (hstate : g.state = .playing)
    (hs : g.snake.update g.field = some (s1, f1, false, false))
    (hlives : ¬ g.lives < 2)
    (h : g.update rand = some (g2, ret)) :
    ∃ f2, f1.update s1.blocks rand = some f2 ∧
      g2 = { g with snake := s1, field := f2,
                    lives := g.lives - 1, state := .died } ∧
      ret = true := by
  rw [Game.update_fatal g rand s1 f1 hstate hs hlives] at h
  cases hf : f1.update s1.blocks rand with
  | none =>
    rw [hf] at h
    exact absurd h (by simp)
  | some f2 =>
    simp only [hf, Option.some.injEq, Prod.mk.injEq] at h
    exact ⟨f2, rfl, h.1.symm, h.2.symm⟩

theorem Snake.update_no_dead_ate (s : Snake) (f : Field) (s2 : Snake)
    (f2 : Field) (h : s.update f = some (s2, f2, false, true)) : False := by
  obtain ⟨b0, rest, hd, nb, hb, hl, hnb, hcase⟩ :=
    Snake.update_inv s f s2 f2 false true h
  rcases hcase with ⟨_, _, hate, _, _⟩ | ⟨_, _, hliv, _, _, _⟩ |
    ⟨_, _, hliv, _, _, _⟩
  · exact absurd hate (by simp)
  · exact absurd hliv (by simp)
  · exact absurd hliv (by simp)

/-- C6: if the game is `playing` with `score = 0` and a length-3 snake,
and the tick's wrapped new head `nb` lands on a flower without hitting
the remaining body, then `Game.update` returns `true`, the score becomes
1, the body grows from 3 to 4 cells, and the eaten flower `nb` is gone
from the resulting field. -/
theorem C6_scoring (g : Game) (rand : List Coord) (b0 hd nb : Coord)
    (rest : List Coord) (g2 : Game) (ret : Bool)
    (hstate : g.state = .playing) (hscore : g.score = 0)
    (hb : g.snake.blocks = b0 :: rest)
    (hlen : g.snake.blocks.length = 3)
    (hl : rest.getLast? = some hd)
    (hnb : nb = (wrapStep (hd.1 + g.snake.dir.1) g.snake.rows,
                 wrapStep (hd.2 + g.snake.dir.2) g.snake.cols))
    (hnc : nb ∉ rest) (hfl : nb ∈ g.field.flowers)
    (h : g.update rand = some (g2, ret)) :
    ret = true ∧ g2.score = 1 ∧ g2.snake.blocks.length = 4 ∧
    nb ∉ g2.field.flowers := by
  have he := Snake.update_eq g.snake g.field b0 hd nb rest hb hl hnb
  rw [if_neg hnc, if_pos hfl] at he
  obtain ⟨f2, hf2, hg2, hret⟩ :=
    Game.update_ate_inv g rand _ _ g2 ret hstate he h
  subst hg2
  refine ⟨hret, by simp [hscore], ?_, ?_⟩
  · have : rest.length = 2 := by
      rw [hb] at hlen
      simpa using hlen
    simp [this]
  · intro hmem
    rw [Field.update] at hf2
    rcases Option.map_eq_some'.mp hf2 with ⟨fl, hfill, hfe⟩
    have hmem2 : nb ∈ fl := by
      have := congrArg Field.flowers hfe
      simp only at this
      rw [← this] at hmem
      exact hmem
    rcases Field.fill_mem _ _ _ _ _ hfill nb hmem2 with hold | hout
    · exact absurd hold (Finset.not_mem_erase nb _)
    · exact hout (by simp)

/-- Witness for C6: the fresh 30×40 game with a flower at `(15,21)`
right of the snake's head scores 1 and grows to 4 cells in one tick. -/
theorem C6_scoring_witness :
    (Game.mk 30 40 3 1 .playing
        ⟨30, 40, (15, 20), (0, 1), [(15,18), (15,19), (15,20), (15,21)]⟩
        ⟨30, 40, 2, {(5,5), (0,0)}⟩).score = 1 ∧
    (Game.mk 30 40 3 1 .playing
        ⟨30, 40, (15, 20), (0, 1), [(15,18), (15,19), (15,20), (15,21)]⟩
        ⟨30, 40, 2, {(5,5), (0,0)}⟩).snake.blocks.length = 4 := by
  have h := C6_scoring
    (Game.mk 30 40 3 0 .playing (Snake.init 30 40 3)
      ⟨30, 40, 2, {(15,21), (0,0)}⟩) [(5,5)]
    (15, 18) (15, 20) (15, 21) [(15,19), (15,20)]
    (Game.mk 30 40 3 1 .playing
      ⟨30, 40, (15, 20), (0, 1), [(15,18), (15,19), (15,20), (15,21)]⟩
      ⟨30, 40, 2, {(5,5), (0,0)}⟩) true
    rfl rfl (by decide) (by decide) (by decide) (by decide) (by decide)
    (by decide) (by decide)
  exact ⟨h.2.1, h.2.2.1⟩

/-- C10: whenever `Game.update` returns `false` (session over), the game
was and remains in state `playing` and the call leaves `lives` and
`score` unchanged — so a positive life count stays positive and `lives`
is never driven to 0 — even though the snake's body has already lost its
tail to the failed `Snake.update`. -/
theorem C10_terminal_frame (g : Game) (rand : List Coord) (g2 : Game)
    (h : g.update rand = some (g2, false)) :
    g.state = .playing ∧ g2.state = .playing ∧ g2.lives = g.lives ∧
    g2.score = g.score ∧ g.lives < 2 ∧
    g2.snake.blocks = g.snake.blocks.tail ∧
    (1 ≤ g.lives → 1 ≤ g2.lives) := by
  cases hstate : g.state with
  | died =>
    rw [Game.update_died g rand hstate] at h
    cases hf : Field.init g.rows g.cols (Snake.init g.rows g.cols).blocks
        rand with
    | none =>
      rw [hf] at h
      exact absurd h (by simp)
    | some fd =>
      rw [hf] at h
      simp only [Option.some.injEq, Prod.mk.injEq] at h
      exact absurd h.2 (by simp)
  | playing =>
    cases hsu : g.snake.update g.field with
    | none =>
      have hnone : g.update rand = none := by
        simp [Game.update, hstate, hsu]
      rw [hnone] at h
      exact absurd h (by simp)
    | some r =>
      obtain ⟨s1, f1, living, ate⟩ := r
      cases living with
      | true =>
        cases ate with
        | true =>
          obtain ⟨f2, _, _, hret⟩ :=
            Game.update_ate_inv g rand s1 f1 g2 false hstate hsu h
          exact absurd hret (by simp)
        | false =>
          obtain ⟨f2, _, _, hret⟩ :=
            Game.update_alive_inv g rand s1 f1 g2 false hstate hsu h
          exact absurd hret (by simp)
      | false =>
        cases ate with
        | true => exact absurd hsu (fun hq =>
            Snake.update_no_dead_ate g.snake g.field s1 f1 hq)
        | false =>
          by_cases hlt : g.lives < 2
          · rw [Game.update_fatal_last g rand s1 f1 hstate hsu hlt] at h
            simp only [Option.some.injEq, Prod.mk.injEq] at h
            obtain ⟨hg2, _⟩ := h
            subst hg2
            obtain ⟨b0, rest, hd, nb, hb, hl, hnb, hcase⟩ :=
              Snake.update_inv g.snake g.field s1 f1 false false hsu
            rcases hcase with ⟨_, _, _, hs1, _⟩ | ⟨_, _, hliv, _, _, _⟩ |
              ⟨_, _, hliv, _, _, _⟩
            · subst hs1
              exact ⟨rfl, hstate, rfl, rfl, hlt, by simp [hb], fun h1 => h1⟩
            · exact absurd hliv (by simp)
            · exact absurd hliv (by simp)
          · obtain ⟨f2, _, _, hret⟩ :=
              Game.update_fatal_inv g rand s1 f1 g2 false hstate hsu hlt h
            exact absurd hret (by simp)

/-- Witness for C10: the last-life fatal tick on body
`[(8,5),(8,6),(8,7)]` reversing into itself leaves the body equal to the
old body's tail. -/
theorem C10_terminal_frame_witness :
    (Game.mk 30 40 1 0 .playing
        ⟨30, 40, (15, 20), (0, -1), [(8,6), (8,7)]⟩
        ⟨30, 40, 2, {(9,9), (8,8)}⟩).snake.blocks =
      (Game.mk 30 40 1 0 .playing
        ⟨30, 40, (15, 20), (0, -1), [(8,5), (8,6), (8,7)]⟩
        ⟨30, 40, 2, {(9,9), (8,8)}⟩).snake.blocks.tail :=
  (C10_terminal_frame
      (Game.mk 30 40 1 0 .playing
        ⟨30, 40, (15, 20), (0, -1), [(8,5), (8,6), (8,7)]⟩
        ⟨30, 40, 2, {(9,9), (8,8)}⟩) []
      (Game.mk 30 40 1 0 .playing
        ⟨30, 40, (15, 20), (0, -1), [(8,6), (8,7)]⟩
        ⟨30, 40, 2, {(9,9), (8,8)}⟩) (by decide)).2.2.2.2.2.1

/-- C1 counterexample: in the deterministic three-collision session the
first two fatal ticks decrement `lives` 3 → 2 → 1 with a `died` tick
followed by a respawn, and the third fatal tick makes `Game.update`
return `false` with `lives` still 1 — `lives` is never driven to 0,
refuting the claim that the third collision drives `lives` to 0. -/
theorem C1_life_cycle_counterexample :
    sessionTick1.map (fun gb => (gb.2, gb.1.lives, gb.1.state)) =
      some (true, 2, .died) ∧
    sessionTick2.map (fun gb => (gb.2, gb.1.lives, gb.1.state)) =
      some (true, 2, .playing) ∧
    sessionTick3.map (fun gb => (gb.2, gb.1.lives, gb.1.state)) =
      some (true, 1, .died) ∧
    sessionTick4.map (fun gb => (gb.2, gb.1.lives, gb.1.state)) =
      some (true, 1, .playing) ∧
    sessionTick5.map (fun gb => (gb.2, gb.1.lives, gb.1.state)) =
      some (false, 1, .playing) := by
  decide

/-- C1 (amended): a fatal tick with two or more lives remaining
decrements `lives` by exactly 1 and sets state to `died` (the next tick
respawns); a fatal tick with fewer than two lives makes `Game.update`
return `false` leaving the game untouched — so in the three-collision
session the third fatal collision returns `false` with `lives` left
at 1, not 0. -/
theorem C1_life_cycle (g : Game) (rand : List Coord) (s1 : Snake)
    (f1 : Field)
    (hstate : g.state = .playing)
    (hdead : g.snake.update g.field = some (s1, f1, false, false)) :
    (g.lives < 2 →
      g.update rand = some ({ g with snake := s1, field := f1 }, false)) ∧
    (2 ≤ g.lives → ∀ g2 ret, g.update rand = some (g2, ret) →
      ret = true ∧ g2.lives = g.lives - 1 ∧ g2.state = .died ∧
      g2.score = g.score) ∧
    sessionTick5.map (fun gb => (gb.2, gb.1.lives)) = some (false, 1) := by
  refine ⟨fun hlt => Game.update_fatal_last g rand s1 f1 hstate hdead hlt,
    ?_, by decide⟩
  intro hge g2 ret h
  obtain ⟨f2, hf2, hg2, hret⟩ :=
    Game.update_fatal_inv g rand s1 f1 g2 ret hstate hdead (by omega) h
  subst hg2
  exact ⟨hret, rfl, rfl, rfl⟩

/-- Witness for C1 (amended): a last-life fatal tick returns `false`
and leaves the game state intact. -/
theorem C1_life_cycle_witness :
    Game.update
      (Game.mk 30 40 1 0 .playing
        ⟨30, 40, (15, 20), (0, -1), [(7,5), (7,6), (7,7)]⟩
        ⟨30, 40, 2, {(9,9), (8,8)}⟩) [] =
      some (Game.mk 30 40 1 0 .playing
        ⟨30, 40, (15, 20), (0, -1), [(7,6), (7,7)]⟩
        ⟨30, 40, 2, {(9,9), (8,8)}⟩, false) :=
  (C1_life_cycle
      (Game.mk 30 40 1 0 .playing
        ⟨30, 40, (15, 20), (0, -1), [(7,5), (7,6), (7,7)]⟩
        ⟨30, 40, 2, {(9,9), (8,8)}⟩) []
      ⟨30, 40, (15, 20), (0, -1), [(7,6), (7,7)]⟩
      ⟨30, 40, 2, {(9,9), (8,8)}⟩ rfl (by decide)).1 (by decide)

end Pysnake
